import Mathlib

/-!
Shallow embedding of `soul::AudioMIDIWrapper`
(src/source/modules/soul_core/utilities/soul_AudioMIDIWrapper.h).

The wrapper compiles a rendering pipeline from the performer's endpoint
lists (`buildRenderingPipeline`), and renders host blocks by splitting
them into sub-blocks (`RenderContext::iterateInBlocks`) so that every
inbound MIDI event lands on a sub-block boundary.

Machine integers (`uint32_t`, `uint64_t`) are modelled as `Nat`: all the
quantities involved (frame counts, channel counts, event counts) stay far
below 2^32 in the quantified ranges of the claims, and the code performs
no wrap-around arithmetic (the only subtraction, `time - frameOffset`, is
guarded by `time > frameOffset`).
-/

/-- One inbound/outbound MIDI message: `soul::MIDIEvent`, reduced to the
fields this file reads (`frameIndex` and the packed MIDI data word). -/
structure MIDIEvent where
  frameIndex : Nat
  packedMIDIData : Int
deriving DecidableEq, Repr

/-- An event produced by the performer for an output endpoint, as seen by
`Performer::iterateOutputEvents` callbacks: a frame offset within the
current sub-block plus an opaque payload (for MIDI endpoints this is the
`midiBytes` field of the event object). -/
structure EngineOutputEvent where
  frameOffset : Nat
  eventData : Int
deriving DecidableEq, Repr

/-- The per-sub-block view handed to the render callback: the fields of
the `RenderContext` copy that vary per sub-block.  `totalFramesRendered`
and `frameOffset` are the values of `context.totalFramesRendered` and
`context.frameOffset` while the sub-block is rendered; `numFrames` is
`framesToDo`; `midiInBatch` is the slice `context.midiIn[0..midiInCount)`
of inbound events consumed by this sub-block. -/
structure SubBlock where
  totalFramesRendered : Nat
  frameOffset : Nat
  numFrames : Nat
  midiInBatch : List MIDIEvent
deriving DecidableEq, Repr

/-- The inner `while (midiInCount != 0)` loop of `iterateInBlocks`, split
into its data effect: consume the leading events whose `frameIndex` is
`≤ frameOffset` (they go into the current sub-block's batch), stopping at
the first event with `time > frameOffset`.  Returns (batch, remaining). -/
def consumeEvents (frameOffset : Nat) : List MIDIEvent → List MIDIEvent × List MIDIEvent
  | [] => ([], [])
  | e :: rest =>
    if frameOffset < e.frameIndex then
      ([], e :: rest)
    else
      (e :: (consumeEvents frameOffset rest).1, (consumeEvents frameOffset rest).2)

/-- The cap applied to `framesToDo` by the first unconsumed event: when
the remaining event list is non-empty and its head has
`time > frameOffset`, `framesToDo = std::min (framesToDo, time - frameOffset)`. -/
def capToNextEvent (frameOffset framesToDo : Nat) : List MIDIEvent → Nat
  | [] => framesToDo
  | e :: _ =>
    if frameOffset < e.frameIndex then
      min framesToDo (e.frameIndex - frameOffset)
    else
      framesToDo

/-- The body of `RenderContext::iterateInBlocks`, returning the sequence
of sub-blocks the loop renders.  Arguments mirror the loop state:
`ctfr` is `context.totalFramesRendered`, `frameOffset` the cursor within
the host block, `framesRemaining` the frames still to render, `midiIn`
the unconsumed inbound events.  The `framesToDo = 0` guard makes the
recursion total; it is unreachable whenever `maxFramesPerBlock ≥ 1`,
which `render` guarantees via `SOUL_ASSERT (... maxBlockSize != 0)`. -/
def iterateInBlocksAux (maxFramesPerBlock ctfr frameOffset framesRemaining : Nat)
    (midiIn : List MIDIEvent) : List SubBlock :=
  if framesRemaining = 0 then
    []
  else
    if _h : capToNextEvent frameOffset (min maxFramesPerBlock framesRemaining)
        (consumeEvents frameOffset midiIn).2 = 0 then
      []
    else
      { totalFramesRendered := ctfr
        frameOffset := frameOffset
        numFrames := capToNextEvent frameOffset (min maxFramesPerBlock framesRemaining)
          (consumeEvents frameOffset midiIn).2
        midiInBatch := (consumeEvents frameOffset midiIn).1 } ::
      iterateInBlocksAux maxFramesPerBlock
        (ctfr + capToNextEvent frameOffset (min maxFramesPerBlock framesRemaining)
          (consumeEvents frameOffset midiIn).2)
        (frameOffset + capToNextEvent frameOffset (min maxFramesPerBlock framesRemaining)
          (consumeEvents frameOffset midiIn).2)
        (framesRemaining - capToNextEvent frameOffset (min maxFramesPerBlock framesRemaining)
          (consumeEvents frameOffset midiIn).2)
        (consumeEvents frameOffset midiIn).2
termination_by framesRemaining
decreasing_by omega

/-- `RenderContext::iterateInBlocks`: the loop starts with the context's
`totalFramesRendered` (the wrapper's running counter), `frameOffset = 0`,
and the full inbound event list. -/
def iterateInBlocks (maxFramesPerBlock totalFramesRendered numFrames : Nat)
    (midiIn : List MIDIEvent) : List SubBlock :=
  iterateInBlocksAux maxFramesPerBlock totalFramesRendered 0 numFrames midiIn

/-- Inbound events must be supplied sorted by non-decreasing frame offset
(a precondition of `render`, stated in the spec's data model). -/
def eventsSorted (midiIn : List MIDIEvent) : Prop :=
  midiIn.Pairwise (fun a b => a.frameIndex ≤ b.frameIndex)

instance (midiIn : List MIDIEvent) : Decidable (eventsSorted midiIn) :=
  List.instDecidablePairwise midiIn

/-! ## Endpoint metadata and the pipeline builder

`EndpointDetails` and the classification helpers (`isParameterInput`,
`isMIDIEventEndpoint`, `isEvent`/`isStream`/`isValue`,
`getNumAudioChannels`, the frame-type float check) live in other
soul_core headers; here an endpoint carries the results of those queries
directly, which is all `buildRenderingPipeline` reads. -/

/-- The three endpoint shapes `buildRenderingPipeline` distinguishes via
`isEvent` / `isStream` / `isValue`. -/
inductive EndpointType
  | stream
  | value
  | event
deriving DecidableEq, Repr

/-- Cached shape facts about one endpoint, as queried by the builder. -/
structure EndpointDetails where
  /-- `performer.getEndpointHandle (endpoint.endpointID)`, modelled as the
  ID itself (handles only need to be stable per endpoint). -/
  endpointID : Nat
  name : String
  endpointType : EndpointType
  /-- result of `isParameterInput (endpoint)` -/
  isParameter : Bool
  /-- result of `isMIDIEventEndpoint (endpoint)` -/
  isMIDI : Bool
  /-- result of `endpoint.getNumAudioChannels()`; 0 when not an audio endpoint -/
  numAudioChannels : Nat
  /-- `frameType.isFloat() || (frameType.isVector() && frameType.getElementType().isFloat())` -/
  isFloatFrame : Bool
deriving DecidableEq, Repr

/-- The performer's declared endpoints, the only engine state the builder
inspects. -/
structure Performer where
  inputEndpoints : List EndpointDetails
  outputEndpoints : List EndpointDetails
deriving Repr

/-- The pre-render operations `buildRenderingPipeline` can push, each
tagged with the captured state that distinguishes it. -/
inductive PreRenderOp
  | paramEvent (endpointHandle : Nat)
  | paramSparseStream (endpointHandle rampFrames : Nat)
  | paramValue (endpointHandle : Nat)
  | midiInEvents (endpointHandle : Nat)
  | audioInputDirect (endpointHandle startChannel : Nat)
  | audioInputInterleaved (endpointHandle startChannel numChans : Nat)
deriving DecidableEq, Repr

/-- The post-render operations `buildRenderingPipeline` can push. -/
inductive PostRenderOp
  | midiOutEvents (endpointHandle : Nat)
  | audioOutput (endpointHandle startChannel numChans : Nat)
  | unusedEventForwarder (endpointHandle : Nat) (endpointName : String)
deriving DecidableEq, Repr

/-- The wrapper's mutable state: the fields of `soul::AudioMIDIWrapper`. -/
structure AudioMIDIWrapper where
  totalFramesRendered : Nat
  preRenderOperations : List PreRenderOp
  postRenderOperations : List PostRenderOp
  numInputChannelsExpected : Nat
  numOutputChannelsExpected : Nat
  maxBlockSize : Nat
deriving DecidableEq, Repr

/-- `AudioMIDIWrapper::reset()`. -/
def AudioMIDIWrapper.reset (w : AudioMIDIWrapper) : AudioMIDIWrapper :=
  { w with
    totalFramesRendered := 0
    preRenderOperations := []
    postRenderOperations := []
    numInputChannelsExpected := 0
    numOutputChannelsExpected := 0
    maxBlockSize := 0 }

/-- One step of the input-endpoint loop in `buildRenderingPipeline`.
`getNewParameterValueFn` models the `GetNewParameterValueFn` callback:
`none` is a null `std::function`; otherwise the returned `Bool` says
whether `getNewParameterValueFn (inputEndpoint)` yields a non-null
change-detector for this endpoint.  `getRampLengthForSparseStreamFn`
gives the captured `rampFrames`.  In the non-float audio branch the C++
hits `SOUL_ASSERT_FALSE` (fatal configuration error) and pushes no
operation; the channel counter advance after the if/else still runs. -/
def processInputEndpoint (getNewParameterValueFn : Option (EndpointDetails → Bool))
    (getRampLengthForSparseStreamFn : EndpointDetails → Nat)
    (w : AudioMIDIWrapper) (inputEndpoint : EndpointDetails) : AudioMIDIWrapper :=
  if inputEndpoint.isParameter then
    match getNewParameterValueFn with
    | none => w
    | some fn =>
      if fn inputEndpoint then
        match inputEndpoint.endpointType with
        | .event =>
          { w with preRenderOperations :=
              w.preRenderOperations ++ [.paramEvent inputEndpoint.endpointID] }
        | .stream =>
          { w with preRenderOperations :=
              w.preRenderOperations ++ [.paramSparseStream inputEndpoint.endpointID
                (getRampLengthForSparseStreamFn inputEndpoint)] }
        | .value =>
          { w with preRenderOperations :=
              w.preRenderOperations ++ [.paramValue inputEndpoint.endpointID] }
      else w
  else if inputEndpoint.isMIDI then
    { w with preRenderOperations :=
        w.preRenderOperations ++ [.midiInEvents inputEndpoint.endpointID] }
  else if inputEndpoint.numAudioChannels ≠ 0 then
    if inputEndpoint.isFloatFrame then
      if inputEndpoint.numAudioChannels = 1 then
        { w with
          preRenderOperations := w.preRenderOperations ++
            [.audioInputDirect inputEndpoint.endpointID w.numInputChannelsExpected]
          numInputChannelsExpected :=
            w.numInputChannelsExpected + inputEndpoint.numAudioChannels }
      else
        { w with
          preRenderOperations := w.preRenderOperations ++
            [.audioInputInterleaved inputEndpoint.endpointID w.numInputChannelsExpected
              inputEndpoint.numAudioChannels]
          numInputChannelsExpected :=
            w.numInputChannelsExpected + inputEndpoint.numAudioChannels }
    else
      { w with numInputChannelsExpected :=
          w.numInputChannelsExpected + inputEndpoint.numAudioChannels }
  else w

/-- One step of the output-endpoint loop in `buildRenderingPipeline`.
`hasHandleUnusedEventFn` is whether the `HandleUnusedEventFn` callback is
non-null.  As for inputs, the non-float audio branch is the
`SOUL_ASSERT_FALSE` path: no operation, but `numOutputChannelsExpected`
was already advanced (the C++ increments it before the float check). -/
def processOutputEndpoint (hasHandleUnusedEventFn : Bool)
    (w : AudioMIDIWrapper) (outputEndpoint : EndpointDetails) : AudioMIDIWrapper :=
  if outputEndpoint.isMIDI then
    { w with postRenderOperations :=
        w.postRenderOperations ++ [.midiOutEvents outputEndpoint.endpointID] }
  else if outputEndpoint.numAudioChannels ≠ 0 then
    if outputEndpoint.isFloatFrame then
      { w with
        postRenderOperations := w.postRenderOperations ++
          [.audioOutput outputEndpoint.endpointID w.numOutputChannelsExpected
            outputEndpoint.numAudioChannels]
        numOutputChannelsExpected :=
          w.numOutputChannelsExpected + outputEndpoint.numAudioChannels }
    else
      { w with numOutputChannelsExpected :=
          w.numOutputChannelsExpected + outputEndpoint.numAudioChannels }
  else if hasHandleUnusedEventFn && outputEndpoint.endpointType == .event then
    { w with postRenderOperations := w.postRenderOperations ++
        [.unusedEventForwarder outputEndpoint.endpointID outputEndpoint.name] }
  else w

/-- `AudioMIDIWrapper::buildRenderingPipeline`: reset, cap the block size
at 512 (`maxBlockSize = std::min (512u, processorMaxBlockSize)`), then
walk the input endpoints and the output endpoints in declaration order. -/
def buildRenderingPipeline (w : AudioMIDIWrapper) (performer : Performer)
    (processorMaxBlockSize : Nat)
    (getNewParameterValueFn : Option (EndpointDetails → Bool))
    (getRampLengthForSparseStreamFn : EndpointDetails → Nat)
    (hasHandleUnusedEventFn : Bool) : AudioMIDIWrapper :=
  performer.outputEndpoints.foldl (processOutputEndpoint hasHandleUnusedEventFn)
    (performer.inputEndpoints.foldl
      (processInputEndpoint getNewParameterValueFn getRampLengthForSparseStreamFn)
      { w.reset with maxBlockSize := min 512 processorMaxBlockSize })

/-- `AudioMIDIWrapper::getExpectedNumInputChannels`. -/
def getExpectedNumInputChannels (w : AudioMIDIWrapper) : Nat :=
  w.numInputChannelsExpected

/-- `AudioMIDIWrapper::getExpectedNumOutputChannels`. -/
def getExpectedNumOutputChannels (w : AudioMIDIWrapper) : Nat :=
  w.numOutputChannelsExpected

/-- An input endpoint that reaches the audio branch of the builder: not a
parameter, not a MIDI event endpoint, and declaring audio channels. -/
def isInputAudioEndpoint (e : EndpointDetails) : Bool :=
  !e.isParameter && !e.isMIDI && e.numAudioChannels != 0

/-- An output endpoint that reaches the audio branch of the builder. -/
def isOutputAudioEndpoint (e : EndpointDetails) : Bool :=
  !e.isMIDI && e.numAudioChannels != 0

/-- Total audio channel width of the endpoints selected by `isAudio`, in
declaration order. -/
def totalAudioChannels (isAudio : EndpointDetails → Bool) : List EndpointDetails → Nat
  | [] => 0
  | e :: rest => (if isAudio e then e.numAudioChannels else 0) + totalAudioChannels isAudio rest

/-! ## Output-event draining -/

/-- Modelled from the spec: `Performer::iterateOutputEvents` is declared
in another soul_core header, not under src/.  The spec describes it as
"iterate produced output events by handle with early-stop capability":
the callback returns a `Bool`, and iteration stops after the first
callback invocation that returns `false`.  The result is the list of
events the callback was invoked on, in order. -/
def iterateOutputEvents (events : List EngineOutputEvent)
    (callback : EngineOutputEvent → Bool) : List EngineOutputEvent :=
  match events with
  | [] => []
  | e :: rest => if callback e then e :: iterateOutputEvents rest callback else [e]

/-- The per-event write of the MIDI-output post-render operation:
`if (rc.midiOutCount < rc.midiOutCapacity) rc.midiOut[rc.midiOutCount++] =
MIDIEvent::fromPackedMIDIData (rc.frameOffset + frameOffset, event["midiBytes"])`.
The accumulated list is `rc.midiOut[0..midiOutCount)`, so `midiOutCount`
is its length. -/
def midiOutWrite (rcFrameOffset midiOutCapacity : Nat)
    (midiOut : List MIDIEvent) (event : EngineOutputEvent) : List MIDIEvent :=
  if midiOut.length < midiOutCapacity then
    midiOut ++ [{ frameIndex := rcFrameOffset + event.frameOffset,
                  packedMIDIData := event.eventData }]
  else midiOut

/-- The MIDI-output post-render operation over one sub-block: drain every
produced event through `midiOutWrite` (the iteration callback always
returns `true`, so all produced events are visited). -/
def midiOutEventsOp (rcFrameOffset midiOutCapacity : Nat)
    (midiOut : List MIDIEvent) (produced : List EngineOutputEvent) : List MIDIEvent :=
  produced.foldl (midiOutWrite rcFrameOffset midiOutCapacity) midiOut

/-- The `handleUnusedEventFn` callback:
`bool(uint64_t eventTime, const std::string& endpointName, const ValueView&)`,
with the payload modelled as the `Int` carried by `EngineOutputEvent`. -/
def HandleUnusedEventFn : Type :=
  Nat → String → Int → Bool

/-- The unused-event post-render operation for one sub-block: it calls
`perf.iterateOutputEvents` with a callback that forwards
`(rc.totalFramesRendered + frameOffset, endpointName, eventData)` to
`handleUnusedEventFn` and returns that callback's result to the
iterator.  The value of this model is the list of
(absolute timestamp, payload) pairs actually forwarded. -/
def unusedEventForwarderOp (handleUnusedEventFn : HandleUnusedEventFn)
    (endpointName : String) (rcTotalFramesRendered : Nat)
    (produced : List EngineOutputEvent) : List (Nat × Int) :=
  (iterateOutputEvents produced
    (fun e => handleUnusedEventFn (rcTotalFramesRendered + e.frameOffset)
      endpointName e.eventData)).map
    (fun e => (rcTotalFramesRendered + e.frameOffset, e.eventData))

/-- The outbound-MIDI side of one `render` call: fold the MIDI-output
drain over the sub-blocks produced by `iterateInBlocks`, starting from an
empty buffer (`midiOutCount = 0`).  `producedEvents` says what the
performer produces for the MIDI output endpoint at each `advance`. -/
def renderMidiOut (blocks : List SubBlock)
    (producedEvents : SubBlock → List EngineOutputEvent)
    (midiOutCapacity : Nat) : List MIDIEvent :=
  blocks.foldl
    (fun midiOut sb => midiOutEventsOp sb.frameOffset midiOutCapacity midiOut
      (producedEvents sb))
    []

/-- `AudioMIDIWrapper::render`: split the block, drain outbound MIDI, add
the block's frame count to the wrapper's running total.  Returns the new
wrapper state and the outbound MIDI buffer contents (whose length is the
`numMIDIOutMessages` handed back to the caller). -/
def render (w : AudioMIDIWrapper) (numFrames : Nat) (midiIn : List MIDIEvent)
    (producedEvents : SubBlock → List EngineOutputEvent)
    (midiOutCapacity : Nat) : AudioMIDIWrapper × List MIDIEvent :=
  ({ w with totalFramesRendered := w.totalFramesRendered + numFrames },
   renderMidiOut (iterateInBlocks w.maxBlockSize w.totalFramesRendered numFrames midiIn)
     producedEvents midiOutCapacity)

/-! ## Helper lemmas about event consumption -/

theorem consumeEvents_append (frameOffset : Nat) (midiIn : List MIDIEvent) :
    (consumeEvents frameOffset midiIn).1 ++ (consumeEvents frameOffset midiIn).2 = midiIn := by
  induction midiIn with
  | nil => simp [consumeEvents]
  | cons e rest ih =>
    by_cases h : frameOffset < e.frameIndex
    · simp [consumeEvents, h]
    · simp [consumeEvents, h, ih]

theorem consumeEvents_batch_le (frameOffset : Nat) (midiIn : List MIDIEvent) :
    ∀ e ∈ (consumeEvents frameOffset midiIn).1, e.frameIndex ≤ frameOffset := by
  induction midiIn with
  | nil => simp [consumeEvents]
  | cons a rest ih =>
    intro e he
    by_cases h : frameOffset < a.frameIndex
    · simp [consumeEvents, h] at he
    · simp only [consumeEvents, if_neg h, List.mem_cons] at he
      rcases he with he | he
      · subst he; omega
      · exact ih e he

theorem consumeEvents_rest_head (frameOffset : Nat) (midiIn : List MIDIEvent) :
    ∀ e l2, (consumeEvents frameOffset midiIn).2 = e :: l2 → frameOffset < e.frameIndex := by
  induction midiIn with
  | nil => intro e l2 h; simp [consumeEvents] at h
  | cons a rest ih =>
    intro e l2 h
    by_cases ha : frameOffset < a.frameIndex
    · simp only [consumeEvents, if_pos ha, List.cons.injEq] at h
      rw [← h.1]; exact ha
    · simp only [consumeEvents, if_neg ha] at h
      exact ih e l2 h

theorem consumeEvents_batch_sublist (frameOffset : Nat) (midiIn : List MIDIEvent) :
    List.Sublist (consumeEvents frameOffset midiIn).1 midiIn := by
  conv_rhs => rw [← consumeEvents_append frameOffset midiIn]
  exact List.sublist_append_left _ _

theorem consumeEvents_rest_sublist (frameOffset : Nat) (midiIn : List MIDIEvent) :
    List.Sublist (consumeEvents frameOffset midiIn).2 midiIn := by
  conv_rhs => rw [← consumeEvents_append frameOffset midiIn]
  exact List.sublist_append_right _ _

theorem consumeEvents_cover (frameOffset : Nat) (midiIn : List MIDIEvent) :
    ∀ e ∈ midiIn,
      e ∈ (consumeEvents frameOffset midiIn).1 ∨ e ∈ (consumeEvents frameOffset midiIn).2 := by
  intro e he
  rw [← consumeEvents_append frameOffset midiIn] at he
  exact List.mem_append.mp he

theorem capToNextEvent_le (frameOffset framesToDo : Nat) (l : List MIDIEvent) :
    capToNextEvent frameOffset framesToDo l ≤ framesToDo := by
  cases l with
  | nil => simp [capToNextEvent]
  | cons e rest =>
    simp only [capToNextEvent]
    split
    · exact Nat.min_le_left _ _
    · exact Nat.le_refl _

theorem capToNextEvent_pos (frameOffset framesToDo : Nat) (l : List MIDIEvent)
    (hf : 1 ≤ framesToDo)
    (hhead : ∀ e l2, l = e :: l2 → frameOffset < e.frameIndex) :
    1 ≤ capToNextEvent frameOffset framesToDo l := by
  cases l with
  | nil => simpa [capToNextEvent]
  | cons e rest =>
    have ht := hhead e rest rfl
    simp only [capToNextEvent, if_pos ht]
    omega

/-- When the remaining events are sorted and the head of the remaining
list lies strictly beyond `frameOffset`, the capped sub-block cannot
reach past any remaining event's timestamp. -/
theorem capToNextEvent_lower_bound (frameOffset framesToDo : Nat) (l : List MIDIEvent)
    (hsorted : eventsSorted l)
    (hhead : ∀ e l2, l = e :: l2 → frameOffset < e.frameIndex) :
    ∀ e ∈ l, frameOffset + capToNextEvent frameOffset framesToDo l ≤ e.frameIndex := by
  cases l with
  | nil => simp
  | cons t l2 =>
    have ht := hhead t l2 rfl
    have hpair := (List.pairwise_cons.mp hsorted).1
    intro e he
    rcases List.mem_cons.mp he with he | he
    · subst he
      simp only [capToNextEvent, if_pos ht]
      omega
    · have := hpair e he
      simp only [capToNextEvent, if_pos ht]
      omega

/-! ## Invariants of the block-splitting loop -/

/-- Membership invariant of `iterateInBlocksAux`: every sub-block starts
at or after the cursor, ends within the remaining frames, does at least
one and at most `maxFramesPerBlock` frames, carries the context's
running total offset by its start, and batches only events from the
supplied list whose timestamps are at or before its start. -/
theorem iterateInBlocksAux_mem (C : Nat) :
    ∀ framesRemaining ctfr frameOffset midiIn sb,
      sb ∈ iterateInBlocksAux C ctfr frameOffset framesRemaining midiIn →
      frameOffset ≤ sb.frameOffset ∧
      sb.frameOffset + sb.numFrames ≤ frameOffset + framesRemaining ∧
      1 ≤ sb.numFrames ∧ sb.numFrames ≤ C ∧
      sb.totalFramesRendered + frameOffset = ctfr + sb.frameOffset ∧
      (∀ e ∈ sb.midiInBatch, e.frameIndex ≤ sb.frameOffset) ∧
      (∀ e ∈ sb.midiInBatch, e ∈ midiIn) := by
  intro framesRemaining
  induction framesRemaining using Nat.strong_induction_on with
  | _ framesRemaining ih =>
    intro ctfr frameOffset midiIn sb hmem
    rw [iterateInBlocksAux] at hmem
    split at hmem
    · simp at hmem
    · split at hmem
      · simp at hmem
      · rename_i hrem hF
        have hFle : capToNextEvent frameOffset (min C framesRemaining)
            (consumeEvents frameOffset midiIn).2 ≤ min C framesRemaining :=
          capToNextEvent_le _ _ _
        rcases List.mem_cons.mp hmem with hsb | hsb
        · subst hsb
          refine ⟨Nat.le_refl _, by simp; omega, by simp; omega, by simp; omega,
            by simp, ?_, ?_⟩
          · exact consumeEvents_batch_le frameOffset midiIn
          · intro e he
            exact (consumeEvents_batch_sublist frameOffset midiIn).mem he
        · have hlt : framesRemaining - capToNextEvent frameOffset (min C framesRemaining)
              (consumeEvents frameOffset midiIn).2 < framesRemaining := by omega
          have := ih _ hlt _ _ _ _ hsb
          refine ⟨by omega, by omega, by omega, by omega, by omega, this.2.2.2.2.2.1, ?_⟩
          intro e he
          exact (consumeEvents_rest_sublist frameOffset midiIn).mem
            (this.2.2.2.2.2.2 e he)

/-- The sub-block frame counts of `iterateInBlocksAux` sum exactly to the
remaining frame count, whenever the block-size cap is at least 1. -/
theorem iterateInBlocksAux_sum (C : Nat) (hC : 1 ≤ C) :
    ∀ framesRemaining ctfr frameOffset midiIn,
      ((iterateInBlocksAux C ctfr frameOffset framesRemaining midiIn).map
        SubBlock.numFrames).sum = framesRemaining := by
  intro framesRemaining
  induction framesRemaining using Nat.strong_induction_on with
  | _ framesRemaining ih =>
    intro ctfr frameOffset midiIn
    rw [iterateInBlocksAux]
    split
    · simp; omega
    · rename_i hrem
      have hFpos : 1 ≤ capToNextEvent frameOffset (min C framesRemaining)
          (consumeEvents frameOffset midiIn).2 :=
        capToNextEvent_pos _ _ _ (by omega) (consumeEvents_rest_head frameOffset midiIn)
      have hFle : capToNextEvent frameOffset (min C framesRemaining)
          (consumeEvents frameOffset midiIn).2 ≤ min C framesRemaining :=
        capToNextEvent_le _ _ _
      split
      · omega
      · rename_i hF
        simp only [List.map_cons, List.sum_cons]
        rw [ih _ (by omega)]
        omega

/-- With a sorted event list whose timestamps all lie at or after the
cursor, every batched event's timestamp equals its sub-block's start, and
every sub-block boundary is the end of the host block, an event
timestamp, or a cap-sized step. -/
theorem iterateInBlocksAux_sorted_mem (C : Nat) :
    ∀ framesRemaining ctfr frameOffset midiIn,
      eventsSorted midiIn →
      (∀ e ∈ midiIn, frameOffset ≤ e.frameIndex) →
      ∀ sb ∈ iterateInBlocksAux C ctfr frameOffset framesRemaining midiIn,
        (∀ e ∈ sb.midiInBatch, e.frameIndex = sb.frameOffset) ∧
        (sb.frameOffset + sb.numFrames = frameOffset + framesRemaining ∨
         (∃ e ∈ midiIn, e.frameIndex = sb.frameOffset + sb.numFrames) ∨
         sb.numFrames = C) := by
  intro framesRemaining
  induction framesRemaining using Nat.strong_induction_on with
  | _ framesRemaining ih =>
    intro ctfr frameOffset midiIn hsorted hlb sb hmem
    rw [iterateInBlocksAux] at hmem
    split at hmem
    · simp at hmem
    · split at hmem
      · simp at hmem
      · rename_i hrem hF
        have hrestSorted : eventsSorted (consumeEvents frameOffset midiIn).2 :=
          List.Pairwise.sublist (consumeEvents_rest_sublist frameOffset midiIn) hsorted
        have hrestLB : ∀ e ∈ (consumeEvents frameOffset midiIn).2,
            frameOffset + capToNextEvent frameOffset (min C framesRemaining)
              (consumeEvents frameOffset midiIn).2 ≤ e.frameIndex :=
          capToNextEvent_lower_bound _ _ _ hrestSorted
            (consumeEvents_rest_head frameOffset midiIn)
        have hFle : capToNextEvent frameOffset (min C framesRemaining)
            (consumeEvents frameOffset midiIn).2 ≤ min C framesRemaining :=
          capToNextEvent_le _ _ _
        rcases List.mem_cons.mp hmem with hsb | hsb
        · subst hsb
          constructor
          · intro e he
            simp only at he ⊢
            have h1 := consumeEvents_batch_le frameOffset midiIn e he
            have h2 := hlb e ((consumeEvents_batch_sublist frameOffset midiIn).mem he)
            omega
          · simp only
            rcases hrest : (consumeEvents frameOffset midiIn).2 with _ | ⟨t, l2⟩
            · -- no remaining event: framesToDo = min C framesRemaining
              simp only [capToNextEvent] at hF ⊢
              rcases Nat.le_total C framesRemaining with h | h
              · right; right; omega
              · left; omega
            · have ht := consumeEvents_rest_head frameOffset midiIn t l2 hrest
              simp only [capToNextEvent, if_pos ht] at hF ⊢
              have hsplit : min (min C framesRemaining) (t.frameIndex - frameOffset) = C ∨
                  min (min C framesRemaining) (t.frameIndex - frameOffset) = framesRemaining ∨
                  min (min C framesRemaining) (t.frameIndex - frameOffset) =
                    t.frameIndex - frameOffset := by omega
              rcases hsplit with h | h | h
              · right; right; exact h
              · left; omega
              · right; left
                refine ⟨t, (consumeEvents_rest_sublist frameOffset midiIn).mem
                  (by rw [hrest]; exact List.mem_cons_self t l2), by omega⟩
        · have hFpos : 1 ≤ capToNextEvent frameOffset (min C framesRemaining)
              (consumeEvents frameOffset midiIn).2 := by omega
          have := ih _ (by omega) _ _ _ hrestSorted hrestLB sb hsb
          refine ⟨this.1, ?_⟩
          rcases this.2 with h | ⟨e, he, heq⟩ | h
          · left; omega
          · right; left
            exact ⟨e, (consumeEvents_rest_sublist frameOffset midiIn).mem he, heq⟩
          · right; right; exact h

/-- Completeness of event delivery: with a sorted event list whose
timestamps lie at or after the cursor, every event with timestamp inside
the remaining frame range is batched into some sub-block. -/
theorem iterateInBlocksAux_delivers (C : Nat) (hC : 1 ≤ C) :
    ∀ framesRemaining ctfr frameOffset midiIn,
      eventsSorted midiIn →
      (∀ e ∈ midiIn, frameOffset ≤ e.frameIndex) →
      ∀ e ∈ midiIn, e.frameIndex < frameOffset + framesRemaining →
      ∃ sb ∈ iterateInBlocksAux C ctfr frameOffset framesRemaining midiIn,
        e ∈ sb.midiInBatch := by
  intro framesRemaining
  induction framesRemaining using Nat.strong_induction_on with
  | _ framesRemaining ih =>
    intro ctfr frameOffset midiIn hsorted hlb e he hlt
    have hrem : framesRemaining ≠ 0 := by
      have := hlb e he
      omega
    have hFpos : 1 ≤ capToNextEvent frameOffset (min C framesRemaining)
        (consumeEvents frameOffset midiIn).2 :=
      capToNextEvent_pos _ _ _ (by omega) (consumeEvents_rest_head frameOffset midiIn)
    have hFle : capToNextEvent frameOffset (min C framesRemaining)
        (consumeEvents frameOffset midiIn).2 ≤ min C framesRemaining :=
      capToNextEvent_le _ _ _
    rw [iterateInBlocksAux]
    rw [if_neg hrem, dif_neg (by omega)]
    rcases consumeEvents_cover frameOffset midiIn e he with hin | hin
    · exact ⟨_, List.mem_cons_self _ _, hin⟩
    · have hrestSorted : eventsSorted (consumeEvents frameOffset midiIn).2 :=
        List.Pairwise.sublist (consumeEvents_rest_sublist frameOffset midiIn) hsorted
      have hrestLB : ∀ x ∈ (consumeEvents frameOffset midiIn).2,
          frameOffset + capToNextEvent frameOffset (min C framesRemaining)
            (consumeEvents frameOffset midiIn).2 ≤ x.frameIndex :=
        capToNextEvent_lower_bound _ _ _ hrestSorted
          (consumeEvents_rest_head frameOffset midiIn)
      obtain ⟨sb, hsb, hesb⟩ := ih (framesRemaining - capToNextEvent frameOffset
          (min C framesRemaining) (consumeEvents frameOffset midiIn).2)
        (by omega) (ctfr + capToNextEvent frameOffset
          (min C framesRemaining) (consumeEvents frameOffset midiIn).2)
        (frameOffset + capToNextEvent frameOffset (min C framesRemaining)
          (consumeEvents frameOffset midiIn).2)
        (consumeEvents frameOffset midiIn).2 hrestSorted hrestLB e hin (by omega)
      exact ⟨sb, List.mem_cons_of_mem _ hsb, hesb⟩

/-! ## Helper lemmas about the pipeline builder -/

theorem processInputEndpoint_maxBlockSize (p : Option (EndpointDetails → Bool))
    (r : EndpointDetails → Nat) (w : AudioMIDIWrapper) (e : EndpointDetails) :
    (processInputEndpoint p r w e).maxBlockSize = w.maxBlockSize := by
  unfold processInputEndpoint
  repeat' split
  all_goals rfl

theorem processInputEndpoint_totalFramesRendered (p : Option (EndpointDetails → Bool))
    (r : EndpointDetails → Nat) (w : AudioMIDIWrapper) (e : EndpointDetails) :
    (processInputEndpoint p r w e).totalFramesRendered = w.totalFramesRendered := by
  unfold processInputEndpoint
  repeat' split
  all_goals rfl

theorem processInputEndpoint_outputCounter (p : Option (EndpointDetails → Bool))
    (r : EndpointDetails → Nat) (w : AudioMIDIWrapper) (e : EndpointDetails) :
    (processInputEndpoint p r w e).numOutputChannelsExpected = w.numOutputChannelsExpected := by
  unfold processInputEndpoint
  repeat' split
  all_goals rfl

theorem processOutputEndpoint_maxBlockSize (u : Bool)
    (w : AudioMIDIWrapper) (e : EndpointDetails) :
    (processOutputEndpoint u w e).maxBlockSize = w.maxBlockSize := by
  unfold processOutputEndpoint
  repeat' split
  all_goals rfl

theorem processOutputEndpoint_totalFramesRendered (u : Bool)
    (w : AudioMIDIWrapper) (e : EndpointDetails) :
    (processOutputEndpoint u w e).totalFramesRendered = w.totalFramesRendered := by
  unfold processOutputEndpoint
  repeat' split
  all_goals rfl

theorem processOutputEndpoint_inputCounter (u : Bool)
    (w : AudioMIDIWrapper) (e : EndpointDetails) :
    (processOutputEndpoint u w e).numInputChannelsExpected = w.numInputChannelsExpected := by
  unfold processOutputEndpoint
  repeat' split
  all_goals rfl

theorem processInputEndpoint_inputCounter (p : Option (EndpointDetails → Bool))
    (r : EndpointDetails → Nat) (w : AudioMIDIWrapper) (e : EndpointDetails) :
    (processInputEndpoint p r w e).numInputChannelsExpected =
      w.numInputChannelsExpected + (if isInputAudioEndpoint e then e.numAudioChannels else 0) := by
  unfold processInputEndpoint isInputAudioEndpoint
  repeat' split
  all_goals simp_all

theorem processOutputEndpoint_outputCounter (u : Bool)
    (w : AudioMIDIWrapper) (e : EndpointDetails) :
    (processOutputEndpoint u w e).numOutputChannelsExpected =
      w.numOutputChannelsExpected + (if isOutputAudioEndpoint e then e.numAudioChannels else 0) := by
  unfold processOutputEndpoint isOutputAudioEndpoint
  repeat' split
  all_goals simp_all

theorem totalAudioChannels_append (isAudio : EndpointDetails → Bool)
    (l1 l2 : List EndpointDetails) :
    totalAudioChannels isAudio (l1 ++ l2) =
      totalAudioChannels isAudio l1 + totalAudioChannels isAudio l2 := by
  induction l1 with
  | nil => simp [totalAudioChannels]
  | cons e rest ih => simp [totalAudioChannels, ih]; omega

theorem foldl_processInput_inputCounter (p : Option (EndpointDetails → Bool))
    (r : EndpointDetails → Nat) :
    ∀ (l : List EndpointDetails) (w : AudioMIDIWrapper),
      (l.foldl (processInputEndpoint p r) w).numInputChannelsExpected =
        w.numInputChannelsExpected + totalAudioChannels isInputAudioEndpoint l := by
  intro l
  induction l with
  | nil => intro w; simp [totalAudioChannels]
  | cons e rest ih =>
    intro w
    simp only [List.foldl_cons, totalAudioChannels, ih, processInputEndpoint_inputCounter]
    omega

theorem foldl_processOutput_outputCounter (u : Bool) :
    ∀ (l : List EndpointDetails) (w : AudioMIDIWrapper),
      (l.foldl (processOutputEndpoint u) w).numOutputChannelsExpected =
        w.numOutputChannelsExpected + totalAudioChannels isOutputAudioEndpoint l := by
  intro l
  induction l with
  | nil => intro w; simp [totalAudioChannels]
  | cons e rest ih =>
    intro w
    simp only [List.foldl_cons, totalAudioChannels, ih, processOutputEndpoint_outputCounter]
    omega

theorem foldl_processInput_outputCounter (p : Option (EndpointDetails → Bool))
    (r : EndpointDetails → Nat) :
    ∀ (l : List EndpointDetails) (w : AudioMIDIWrapper),
      (l.foldl (processInputEndpoint p r) w).numOutputChannelsExpected =
        w.numOutputChannelsExpected := by
  intro l
  induction l with
  | nil => intro w; rfl
  | cons e rest ih =>
    intro w
    simp only [List.foldl_cons, ih, processInputEndpoint_outputCounter]

theorem foldl_processOutput_inputCounter (u : Bool) :
    ∀ (l : List EndpointDetails) (w : AudioMIDIWrapper),
      (l.foldl (processOutputEndpoint u) w).numInputChannelsExpected =
        w.numInputChannelsExpected := by
  intro l
  induction l with
  | nil => intro w; rfl
  | cons e rest ih =>
    intro w
    simp only [List.foldl_cons, ih, processOutputEndpoint_inputCounter]

theorem foldl_processInput_maxBlockSize (p : Option (EndpointDetails → Bool))
    (r : EndpointDetails → Nat) :
    ∀ (l : List EndpointDetails) (w : AudioMIDIWrapper),
      (l.foldl (processInputEndpoint p r) w).maxBlockSize = w.maxBlockSize := by
  intro l
  induction l with
  | nil => intro w; rfl
  | cons e rest ih =>
    intro w
    simp only [List.foldl_cons, ih, processInputEndpoint_maxBlockSize]

theorem foldl_processOutput_maxBlockSize (u : Bool) :
    ∀ (l : List EndpointDetails) (w : AudioMIDIWrapper),
      (l.foldl (processOutputEndpoint u) w).maxBlockSize = w.maxBlockSize := by
  intro l
  induction l with
  | nil => intro w; rfl
  | cons e rest ih =>
    intro w
    simp only [List.foldl_cons, ih, processOutputEndpoint_maxBlockSize]

theorem foldl_processInput_totalFramesRendered (p : Option (EndpointDetails → Bool))
    (r : EndpointDetails → Nat) :
    ∀ (l : List EndpointDetails) (w : AudioMIDIWrapper),
      (l.foldl (processInputEndpoint p r) w).totalFramesRendered = w.totalFramesRendered := by
  intro l
  induction l with
  | nil => intro w; rfl
  | cons e rest ih =>
    intro w
    simp only [List.foldl_cons, ih, processInputEndpoint_totalFramesRendered]

theorem foldl_processOutput_totalFramesRendered (u : Bool) :
    ∀ (l : List EndpointDetails) (w : AudioMIDIWrapper),
      (l.foldl (processOutputEndpoint u) w).totalFramesRendered = w.totalFramesRendered := by
  intro l
  induction l with
  | nil => intro w; rfl
  | cons e rest ih =>
    intro w
    simp only [List.foldl_cons, ih, processOutputEndpoint_totalFramesRendered]

/-- The outbound-event buffer never grows past its capacity. -/
theorem midiOutEventsOp_length_le (rcFrameOffset midiOutCapacity : Nat) :
    ∀ (produced : List EngineOutputEvent) (midiOut : List MIDIEvent),
      midiOut.length ≤ midiOutCapacity →
      (midiOutEventsOp rcFrameOffset midiOutCapacity midiOut produced).length ≤
        midiOutCapacity := by
  intro produced
  induction produced with
  | nil => intro midiOut h; simpa [midiOutEventsOp]
  | cons e rest ih =>
    intro midiOut h
    simp only [midiOutEventsOp, List.foldl_cons]
    apply ih
    unfold midiOutWrite
    split
    · simp; omega
    · exact h

theorem renderMidiOut_length_le (blocks : List SubBlock)
    (producedEvents : SubBlock → List EngineOutputEvent) (midiOutCapacity : Nat) :
    (renderMidiOut blocks producedEvents midiOutCapacity).length ≤ midiOutCapacity := by
  suffices h : ∀ (bs : List SubBlock) (acc : List MIDIEvent),
      acc.length ≤ midiOutCapacity →
      (bs.foldl (fun midiOut sb => midiOutEventsOp sb.frameOffset midiOutCapacity midiOut
        (producedEvents sb)) acc).length ≤ midiOutCapacity by
    exact h blocks [] (by simp)
  intro bs
  induction bs with
  | nil => intro acc h; simpa
  | cons sb rest ih =>
    intro acc h
    simp only [List.foldl_cons]
    exact ih _ (midiOutEventsOp_length_le _ _ _ _ h)

theorem iterateOutputEvents_all_true (events : List EngineOutputEvent)
    (callback : EngineOutputEvent → Bool) (h : ∀ e ∈ events, callback e = true) :
    iterateOutputEvents events callback = events := by
  induction events with
  | nil => rfl
  | cons e rest ih =>
    simp only [iterateOutputEvents, h e (List.mem_cons_self e rest), if_true]
    rw [ih (fun x hx => h x (List.mem_cons_of_mem e hx))]

/-! ## Claim theorems -/

/-- C1 (amended): for an output endpoint that is a plain event endpoint
with no dedicated handling and a caller-supplied unused-event callback,
the post-render operation forwards produced events to the callback in
order, each with its absolute timestamp
`rc.totalFramesRendered + frameOffset`; if the callback returns `true` on
every invocation then every produced event is forwarded, while a `false`
return is handed back to the performer's event iterator and stops the
draining of that endpoint's remaining events for the sub-block. -/
theorem C1_unusedEventForwarding (handleUnusedEventFn : HandleUnusedEventFn)
    (endpointName : String) (rcTotalFramesRendered : Nat)
    (produced : List EngineOutputEvent) :
    ((∀ t n d, handleUnusedEventFn t n d = true) →
      unusedEventForwarderOp handleUnusedEventFn endpointName rcTotalFramesRendered produced =
        produced.map (fun e => (rcTotalFramesRendered + e.frameOffset, e.eventData))) ∧
    (∀ e rest,
      handleUnusedEventFn (rcTotalFramesRendered + e.frameOffset) endpointName
          e.eventData = false →
      unusedEventForwarderOp handleUnusedEventFn endpointName rcTotalFramesRendered (e :: rest) =
        [(rcTotalFramesRendered + e.frameOffset, e.eventData)]) := by
  constructor
  · intro h
    unfold unusedEventForwarderOp
    rw [iterateOutputEvents_all_true _ _ (fun e _ => h _ _ _)]
  · intro e rest h
    unfold unusedEventForwarderOp
    simp [iterateOutputEvents, h]

/-- C1 counterexample: with a callback that always returns `false` and
two produced events, only the first event is forwarded — the callback's
return value does affect draining, contradicting the claim that all
produced events are forwarded regardless of what the callback returns. -/
theorem C1_counterexample :
    unusedEventForwarderOp (fun _ _ _ => false) "eventOut" 0 [⟨0, 1⟩, ⟨1, 2⟩] = [(0, 1)] ∧
    unusedEventForwarderOp (fun _ _ _ => false) "eventOut" 0 [⟨0, 1⟩, ⟨1, 2⟩] ≠
      [(0, 1), (1, 2)] := by
  constructor
  · rfl
  · decide

theorem C1_witness :
    unusedEventForwarderOp (fun _ _ _ => true) "eventOut" 7 [⟨2, 5⟩] = [(9, 5)] ∧
    unusedEventForwarderOp (fun _ _ _ => false) "eventOut" 7 [⟨2, 5⟩, ⟨3, 6⟩] = [(9, 5)] := by
  constructor
  · have h := (C1_unusedEventForwarding (fun _ _ _ => true) "eventOut" 7 [⟨2, 5⟩]).1
      (fun _ _ _ => rfl)
    simpa using h
  · have h := (C1_unusedEventForwarding (fun _ _ _ => false) "eventOut" 7 []).2
      ⟨2, 5⟩ [⟨3, 6⟩] rfl
    simpa using h

/-- C2: for a host block of `numFrames` frames with cap ≥ 1, the
`framesToDo` values of the render loop's iterations sum to exactly
`numFrames`, no iteration exceeds the cap, and the loop yields nothing
once the remaining frame count is zero. -/
theorem C2_blockSplitTotal (maxFramesPerBlock totalFramesRendered numFrames : Nat)
    (midiIn : List MIDIEvent) (hC : 1 ≤ maxFramesPerBlock)
    (_hsorted : eventsSorted midiIn) :
    ((iterateInBlocks maxFramesPerBlock totalFramesRendered numFrames midiIn).map
      SubBlock.numFrames).sum = numFrames ∧
    (∀ sb ∈ iterateInBlocks maxFramesPerBlock totalFramesRendered numFrames midiIn,
      sb.numFrames ≤ maxFramesPerBlock) ∧
    (∀ ctfr frameOffset events,
      iterateInBlocksAux maxFramesPerBlock ctfr frameOffset 0 events = []) := by
  refine ⟨iterateInBlocksAux_sum _ hC _ _ _ _, ?_, ?_⟩
  · intro sb hsb
    exact (iterateInBlocksAux_mem _ _ _ _ _ _ hsb).2.2.2.1
  · intro ctfr frameOffset events
    rw [iterateInBlocksAux]
    simp

theorem C2_witness :
    1 ≤ 512 ∧ eventsSorted [⟨100, 0⟩] ∧
    ((iterateInBlocks 512 0 1024 [(⟨100, 0⟩ : MIDIEvent)]).map SubBlock.numFrames).sum = 1024 :=
  ⟨by decide, by decide,
    (C2_blockSplitTotal 512 0 1024 [⟨100, 0⟩] (by decide) (by decide)).1⟩

/-- C3 (amended): for a non-empty, time-sorted inbound event list, every
sub-block boundary is the end of the host block, the timestamp of some
inbound event, or a boundary forced by the sub-block cap (the sub-block
does exactly `maxFramesPerBlock` frames); every batched event's timestamp
equals its sub-block's start offset (so no event is delivered to a
sub-block starting after — or before — its timestamp); and every event
with timestamp inside the block is delivered to the sub-block starting
exactly at its timestamp. -/
theorem C3_eventBoundaries (maxFramesPerBlock totalFramesRendered numFrames : Nat)
    (midiIn : List MIDIEvent) (hC : 1 ≤ maxFramesPerBlock)
    (_hne : midiIn ≠ []) (hsorted : eventsSorted midiIn) :
    (∀ sb ∈ iterateInBlocks maxFramesPerBlock totalFramesRendered numFrames midiIn,
      sb.frameOffset + sb.numFrames = numFrames ∨
      (∃ e ∈ midiIn, e.frameIndex = sb.frameOffset + sb.numFrames) ∨
      sb.numFrames = maxFramesPerBlock) ∧
    (∀ sb ∈ iterateInBlocks maxFramesPerBlock totalFramesRendered numFrames midiIn,
      ∀ e ∈ sb.midiInBatch, e.frameIndex = sb.frameOffset) ∧
    (∀ e ∈ midiIn, e.frameIndex < numFrames →
      ∃ sb ∈ iterateInBlocks maxFramesPerBlock totalFramesRendered numFrames midiIn,
        e ∈ sb.midiInBatch ∧ sb.frameOffset = e.frameIndex) := by
  have hlb : ∀ e ∈ midiIn, 0 ≤ e.frameIndex := fun _ _ => Nat.zero_le _
  refine ⟨?_, ?_, ?_⟩
  · intro sb hsb
    have h := iterateInBlocksAux_sorted_mem maxFramesPerBlock numFrames totalFramesRendered 0
      midiIn hsorted hlb sb hsb
    simpa using h.2
  · intro sb hsb
    exact (iterateInBlocksAux_sorted_mem maxFramesPerBlock numFrames totalFramesRendered 0
      midiIn hsorted hlb sb hsb).1
  · intro e he hlt
    obtain ⟨sb, hsb, hin⟩ := iterateInBlocksAux_delivers maxFramesPerBlock hC numFrames
      totalFramesRendered 0 midiIn hsorted hlb e he (by omega)
    have heq := (iterateInBlocksAux_sorted_mem maxFramesPerBlock numFrames totalFramesRendered 0
      midiIn hsorted hlb sb hsb).1 e hin
    exact ⟨sb, hsb, hin, heq.symm⟩

/-- C3 counterexample: with a 1024-frame block, cap 512 and a single
event at frame 0, the first sub-block's boundary is 512, which is
neither the final boundary (1024) nor any event's timestamp — so not
every non-final sub-block boundary coincides with an event timestamp. -/
theorem C3_counterexample :
    ¬ (∀ sb ∈ iterateInBlocks 512 0 1024 [(⟨0, 0⟩ : MIDIEvent)],
        sb.frameOffset + sb.numFrames = 1024 ∨
        ∃ e ∈ [(⟨0, 0⟩ : MIDIEvent)], e.frameIndex = sb.frameOffset + sb.numFrames) := by
  intro h
  have heval : iterateInBlocks 512 0 1024 [(⟨0, 0⟩ : MIDIEvent)] =
      [⟨0, 0, 512, [⟨0, 0⟩]⟩, ⟨512, 512, 512, []⟩] := by
    simp [iterateInBlocks, iterateInBlocksAux, consumeEvents, capToNextEvent]
  rw [heval] at h
  have hblock := h ⟨0, 0, 512, [⟨0, 0⟩]⟩ (by simp)
  simp at hblock

theorem C3_witness :
    1 ≤ 512 ∧ ([(⟨100, 0⟩ : MIDIEvent)] ≠ []) ∧ eventsSorted [⟨100, 0⟩] ∧
    (∀ sb ∈ iterateInBlocks 512 0 512 [(⟨100, 0⟩ : MIDIEvent)],
      ∀ e ∈ sb.midiInBatch, e.frameIndex = sb.frameOffset) :=
  ⟨by decide, by decide, by decide,
    (C3_eventBoundaries 512 0 512 [⟨100, 0⟩] (by decide) (by decide) (by decide)).2.1⟩

/-- C4: the outbound event count returned by `render` never exceeds the
supplied capacity, and once the buffer holds `capacity` events the
per-event write is a no-op (further events are dropped, not an error). -/
theorem C4_outboundCapacity (w : AudioMIDIWrapper) (numFrames : Nat)
    (midiIn : List MIDIEvent) (producedEvents : SubBlock → List EngineOutputEvent)
    (midiOutCapacity : Nat) :
    ((render w numFrames midiIn producedEvents midiOutCapacity).2).length ≤ midiOutCapacity ∧
    (∀ rcFrameOffset midiOut event, midiOutCapacity ≤ List.length midiOut →
      midiOutWrite rcFrameOffset midiOutCapacity midiOut event = midiOut) := by
  constructor
  · simp only [render]
    exact renderMidiOut_length_le _ _ _
  · intro rcFrameOffset midiOut event h
    unfold midiOutWrite
    rw [if_neg (by omega)]

theorem C4_witness :
    ((render ⟨0, [], [], 0, 0, 512⟩ 8 [] (fun _ => [⟨0, 1⟩, ⟨2, 3⟩, ⟨4, 5⟩]) 2).2).length ≤ 2 ∧
    midiOutWrite 0 2 [⟨0, 1⟩, ⟨2, 3⟩] ⟨4, 5⟩ = [⟨0, 1⟩, ⟨2, 3⟩] := by
  have h := C4_outboundCapacity ⟨0, [], [], 0, 0, 512⟩ 8 []
    (fun _ => [⟨0, 1⟩, ⟨2, 3⟩, ⟨4, 5⟩]) 2
  exact ⟨h.1, h.2 0 [⟨0, 1⟩, ⟨2, 3⟩] ⟨4, 5⟩ (by decide)⟩

/-- C5: for every requested maximum block size > 0, the effective
maximum sub-block size stored by `buildRenderingPipeline` (and used by
the render loop) is `min (requested, 512)`. -/
theorem C5_effectiveMaxBlockSize (w : AudioMIDIWrapper) (performer : Performer)
    (processorMaxBlockSize : Nat) (p : Option (EndpointDetails → Bool))
    (r : EndpointDetails → Nat) (u : Bool) (_hpos : 0 < processorMaxBlockSize) :
    (buildRenderingPipeline w performer processorMaxBlockSize p r u).maxBlockSize =
      min processorMaxBlockSize 512 := by
  unfold buildRenderingPipeline
  rw [foldl_processOutput_maxBlockSize, foldl_processInput_maxBlockSize]
  simp [Nat.min_comm]

theorem C5_witness :
    0 < 100 ∧
    (buildRenderingPipeline ⟨0, [], [], 0, 0, 0⟩ ⟨[], []⟩ 100 none (fun _ => 0)
      false).maxBlockSize = min 100 512 :=
  ⟨by decide,
    C5_effectiveMaxBlockSize ⟨0, [], [], 0, 0, 0⟩ ⟨[], []⟩ 100 none (fun _ => 0) false
      (by decide)⟩

/-- C6: the channel counters grow monotonically as the builder walks the
endpoint lists (each prefix of the walk yields a counter no larger than
the next prefix's), and after building they equal the summed audio
channel widths of the input (resp. output) audio endpoints in
declaration order — exactly what the two getters report. -/
theorem C6_channelCounters (w : AudioMIDIWrapper) (performer : Performer)
    (processorMaxBlockSize : Nat) (p : Option (EndpointDetails → Bool))
    (r : EndpointDetails → Nat) (u : Bool) :
    (∀ (l : List EndpointDetails) (w0 : AudioMIDIWrapper) (k : Nat),
      ((l.take k).foldl (processInputEndpoint p r) w0).numInputChannelsExpected ≤
        ((l.take (k + 1)).foldl (processInputEndpoint p r) w0).numInputChannelsExpected) ∧
    (∀ (l : List EndpointDetails) (w0 : AudioMIDIWrapper) (k : Nat),
      ((l.take k).foldl (processOutputEndpoint u) w0).numOutputChannelsExpected ≤
        ((l.take (k + 1)).foldl (processOutputEndpoint u) w0).numOutputChannelsExpected) ∧
    getExpectedNumInputChannels
        (buildRenderingPipeline w performer processorMaxBlockSize p r u) =
      totalAudioChannels isInputAudioEndpoint performer.inputEndpoints ∧
    getExpectedNumOutputChannels
        (buildRenderingPipeline w performer processorMaxBlockSize p r u) =
      totalAudioChannels isOutputAudioEndpoint performer.outputEndpoints := by
  refine ⟨?_, ?_, ?_, ?_⟩
  · intro l w0 k
    rw [foldl_processInput_inputCounter, foldl_processInput_inputCounter,
      List.take_succ, totalAudioChannels_append]
    omega
  · intro l w0 k
    rw [foldl_processOutput_outputCounter, foldl_processOutput_outputCounter,
      List.take_succ, totalAudioChannels_append]
    omega
  · unfold getExpectedNumInputChannels buildRenderingPipeline
    rw [foldl_processOutput_inputCounter, foldl_processInput_inputCounter]
    simp [AudioMIDIWrapper.reset]
  · unfold getExpectedNumOutputChannels buildRenderingPipeline
    rw [foldl_processOutput_outputCounter, foldl_processInput_outputCounter]
    simp [AudioMIDIWrapper.reset]

/-- C7: building the pipeline twice with the same engine endpoint state
and arguments yields exactly the same wrapper state — in particular the
same expected channel counts and the same number of pre-render and
post-render operations — because building starts by resetting all
compiled operations and counters. -/
theorem C7_buildIdempotent (w : AudioMIDIWrapper) (performer : Performer)
    (processorMaxBlockSize : Nat) (p : Option (EndpointDetails → Bool))
    (r : EndpointDetails → Nat) (u : Bool) :
    buildRenderingPipeline
        (buildRenderingPipeline w performer processorMaxBlockSize p r u)
        performer processorMaxBlockSize p r u =
      buildRenderingPipeline w performer processorMaxBlockSize p r u ∧
    getExpectedNumInputChannels
        (buildRenderingPipeline
          (buildRenderingPipeline w performer processorMaxBlockSize p r u)
          performer processorMaxBlockSize p r u) =
      getExpectedNumInputChannels
        (buildRenderingPipeline w performer processorMaxBlockSize p r u) ∧
    getExpectedNumOutputChannels
        (buildRenderingPipeline
          (buildRenderingPipeline w performer processorMaxBlockSize p r u)
          performer processorMaxBlockSize p r u) =
      getExpectedNumOutputChannels
        (buildRenderingPipeline w performer processorMaxBlockSize p r u) ∧
    (buildRenderingPipeline
        (buildRenderingPipeline w performer processorMaxBlockSize p r u)
        performer processorMaxBlockSize p r u).preRenderOperations.length =
      (buildRenderingPipeline w performer processorMaxBlockSize p r u).preRenderOperations.length ∧
    (buildRenderingPipeline
        (buildRenderingPipeline w performer processorMaxBlockSize p r u)
        performer processorMaxBlockSize p r u).postRenderOperations.length =
      (buildRenderingPipeline w performer processorMaxBlockSize p r u).postRenderOperations.length := by
  exact ⟨rfl, rfl, rfl, rfl, rfl⟩

/-- C8: a 512-frame block with cap 512 and one inbound event at frame
offset 100 splits into exactly two sub-blocks, [0,100) and [100,512) —
two advance calls of 100 and 412 frames — with the event batched into
the second sub-block. -/
theorem C8_scenario :
    iterateInBlocks 512 0 512 [(⟨100, 0⟩ : MIDIEvent)] =
      [⟨0, 0, 100, []⟩, ⟨100, 100, 412, [⟨100, 0⟩]⟩] ∧
    (iterateInBlocks 512 0 512 [(⟨100, 0⟩ : MIDIEvent)]).map SubBlock.numFrames =
      [100, 412] := by
  constructor
  · simp [iterateInBlocks, iterateInBlocksAux, consumeEvents, capToNextEvent]
  · simp [iterateInBlocks, iterateInBlocksAux, consumeEvents, capToNextEvent]

/-- C9: each `render` of an N-frame block adds exactly N to the wrapper's
`totalFramesRendered` (so the counter persists and never decreases
between builds), `buildRenderingPipeline` resets it to zero, and within a
render call each sub-block's context counter — the time base the
unused-event operation adds to the produced event's frame offset — equals
the wrapper counter at call entry plus the sub-block's start offset. -/
theorem C9_totalFramesCounter (w : AudioMIDIWrapper) (numFrames : Nat)
    (midiIn : List MIDIEvent) (producedEvents : SubBlock → List EngineOutputEvent)
    (midiOutCapacity : Nat) (performer : Performer) (processorMaxBlockSize : Nat)
    (p : Option (EndpointDetails → Bool)) (r : EndpointDetails → Nat) (u : Bool)
    (maxFramesPerBlock base blockFrames : Nat) (events : List MIDIEvent) :
    ((render w numFrames midiIn producedEvents midiOutCapacity).1).totalFramesRendered =
      w.totalFramesRendered + numFrames ∧
    (buildRenderingPipeline w performer processorMaxBlockSize p r u).totalFramesRendered = 0 ∧
    (∀ sb ∈ iterateInBlocks maxFramesPerBlock base blockFrames events,
      sb.totalFramesRendered = base + sb.frameOffset) := by
  refine ⟨rfl, ?_, ?_⟩
  · unfold buildRenderingPipeline
    rw [foldl_processOutput_totalFramesRendered, foldl_processInput_totalFramesRendered]
    simp [AudioMIDIWrapper.reset]
  · intro sb hsb
    have h := (iterateInBlocksAux_mem maxFramesPerBlock blockFrames base 0 events sb hsb).2.2.2.2.1
    omega

theorem C9_witness :
    ((render ⟨5, [], [], 0, 0, 512⟩ 64 [] (fun _ => []) 0).1).totalFramesRendered = 5 + 64 ∧
    (SubBlock.mk 107 100 412 [⟨100, 0⟩]).totalFramesRendered =
      7 + (SubBlock.mk 107 100 412 [⟨100, 0⟩]).frameOffset := by
  have h := C9_totalFramesCounter ⟨5, [], [], 0, 0, 512⟩ 64 [] (fun _ => []) 0
    ⟨[], []⟩ 100 none (fun _ => 0) false 512 7 512 [⟨100, 0⟩]
  refine ⟨h.1, h.2.2 (SubBlock.mk 107 100 412 [⟨100, 0⟩]) ?_⟩
  simp [iterateInBlocks, iterateInBlocksAux, consumeEvents, capToNextEvent]

/-- C10: in every render call (cap ≥ 1), each sub-block starts strictly
inside the block, every delivered event's timestamp is at most its
sub-block's start and strictly below the block's frame count — so an
event with frame offset ≥ the block length is never delivered — and the
only wrapper state `render` changes is the running frame counter: no
event state is carried over to a later render call. -/
theorem C10_noLateEvents (maxFramesPerBlock base numFrames : Nat) (midiIn : List MIDIEvent)
    (_hC : 1 ≤ maxFramesPerBlock) (w : AudioMIDIWrapper)
    (producedEvents : SubBlock → List EngineOutputEvent) (midiOutCapacity : Nat) :
    (∀ sb ∈ iterateInBlocks maxFramesPerBlock base numFrames midiIn,
      sb.frameOffset < numFrames ∧
      ∀ e ∈ sb.midiInBatch, e.frameIndex ≤ sb.frameOffset ∧ e.frameIndex < numFrames) ∧
    (render w numFrames midiIn producedEvents midiOutCapacity).1 =
      { w with totalFramesRendered := w.totalFramesRendered + numFrames } := by
  constructor
  · intro sb hsb
    have h := iterateInBlocksAux_mem maxFramesPerBlock numFrames base 0 midiIn sb hsb
    obtain ⟨h1, h2, h3, -, -, h6, -⟩ := h
    refine ⟨by omega, ?_⟩
    intro e he
    have := h6 e he
    exact ⟨this, by omega⟩
  · rfl

theorem C10_witness :
    (SubBlock.mk 100 100 412 [⟨100, 1⟩]).frameOffset < 512 ∧
    (render ⟨0, [], [], 0, 0, 512⟩ 512 [⟨100, 1⟩] (fun _ => []) 0).1 =
      ⟨512, [], [], 0, 0, 512⟩ := by
  have h := C10_noLateEvents 512 0 512 [⟨100, 1⟩] (by decide) ⟨0, [], [], 0, 0, 512⟩
    (fun _ => []) 0
  refine ⟨(h.1 (SubBlock.mk 100 100 412 [⟨100, 1⟩]) ?_).1, h.2⟩
  simp [iterateInBlocks, iterateInBlocksAux, consumeEvents, capToNextEvent]
